import Mathlib

/-!
Verification of the Feature & Quota Entitlement Engine
(AFFiNE backend, modules `users` and `features`).

The development shallowly embeds:
- the feature catalog and config validation from
  `packages/backend/server/src/modules/features/types/index.ts`;
- the GraphQL resolver operations from
  `packages/backend/server/src/modules/users/index.ts`
  (`currentUser`, `user`, `getQuota`, `addToEarlyAccess`,
  `removeEarlyAccess`, `earlyAccessUsers`);
- the service collaborators that the resolver calls but whose sources are
  not part of this snapshot (`FeatureManagementService`, `QuotaService`,
  `AuthService.createAnonymousUser`, the per-feature zod schemas); those
  are modelled from the specification and are marked as such in their
  doc comments.

Asynchronous resolver methods become pure functions from an explicit
environment (users table, entitlement store, clock) to a result paired
with the updated environment; thrown exceptions become `Except` errors.
-/

/-- FeatureKind enum from `features/types/index.ts` (`Feature`, `Quota`). -/
inductive FeatureKind where
  | Feature
  | Quota
deriving DecidableEq, Repr

/-- JSON-like raw configuration value, the embedding of the untyped
`configs: z.unknown()` payload that candidate feature records carry
before validation. -/
inductive ConfigVal where
  | str (s : String)
  | num (n : Int)
  | bool (b : Bool)
  | arr (xs : List ConfigVal)
  | obj (fields : List (String × ConfigVal))

/-- Modelled from the spec: `FeatureType.Copilot` string value; the enum
lives in `features/types/common.ts`, which is not part of the snapshot. -/
def copilotName : String := "copilot"

/-- Modelled from the spec: `FeatureType.EarlyAccess` string value; the enum
lives in `features/types/common.ts`, which is not part of the snapshot. -/
def earlyAccessName : String := "early_access"

/-- Record shape of `commonFeatureSchema`:
`{feature: string, type: nativeEnum FeatureKind, version: number, configs: unknown}`. -/
structure CommonFeature where
  feature : String
  type : FeatureKind
  version : Nat
  configs : ConfigVal

/-- The whitelist of the EarlyAccess catalog entry
(`configs: { whitelist: ['@toeverything.info'] }` in `features/types/index.ts`). -/
def earlyAccessWhitelist : List String := ["@toeverything.info"]

/-- The static `Features` catalog from `features/types/index.ts`: Copilot
(Feature kind, version 1, empty config) and EarlyAccess (Feature kind,
version 1, whitelist config). -/
def Features : List CommonFeature :=
  [ { feature := copilotName
    , type := FeatureKind.Feature
    , version := 1
    , configs := ConfigVal.obj [] }
  , { feature := earlyAccessName
    , type := FeatureKind.Feature
    , version := 1
    , configs := ConfigVal.obj
        [("whitelist", ConfigVal.arr (earlyAccessWhitelist.map ConfigVal.str))] } ]

/-- Checks that every element of a JSON array is a string (the shape of a
`whitelist` value). -/
def isStrArray : List ConfigVal → Bool
  | [] => true
  | ConfigVal.str _ :: rest => isStrArray rest
  | _ => false

/-- Shape check for the Copilot config: the spec says Copilot expects `{}`. -/
def copilotShapeOk : ConfigVal → Bool
  | ConfigVal.obj [] => true
  | _ => false

/-- Shape check for the EarlyAccess config: the spec says EarlyAccess expects
`{whitelist: sequence of string}`. -/
def earlyAccessShapeOk : ConfigVal → Bool
  | ConfigVal.obj fields =>
    match fields.lookup "whitelist" with
    | some (ConfigVal.arr xs) => isStrArray xs
    | _ => false
  | _ => false

/-- Modelled from the spec: the `featureCopilot` zod schema
(`features/types/copilot.ts`, not in the snapshot). A Copilot record must
carry a supported schema version (the catalog declares version 1) and a
config matching `{}`. -/
def validCopilot (c : CommonFeature) : Bool :=
  c.version == 1 && copilotShapeOk c.configs

/-- Modelled from the spec: the `featureEarlyAccess` zod schema
(`features/types/early-access.ts`, not in the snapshot). An EarlyAccess
record must carry a supported schema version (the catalog declares
version 1) and a config matching `{whitelist: sequence of string}`. -/
def validEarlyAccess (c : CommonFeature) : Bool :=
  c.version == 1 && earlyAccessShapeOk c.configs

/-- Validation error (the `ValidationError` outcome of the config
validator). -/
inductive ValidationError where
  | invalid
deriving DecidableEq, Repr

/-- Embedding of `FeatureSchema` from `features/types/index.ts`:
`commonFeatureSchema.extend({type: z.literal(FeatureKind.Feature)})`
intersected with `z.discriminatedUnion('feature', [featureCopilot,
featureEarlyAccess])`. The `type` literal check comes from the source; the
two union arms are the spec-modelled per-feature schemas above; an
unrecognized discriminator value is rejected by the discriminated union. -/
def validateFeature (c : CommonFeature) : Except ValidationError CommonFeature :=
  if c.type != FeatureKind.Feature then Except.error ValidationError.invalid
  else if c.feature == copilotName then
    if validCopilot c then Except.ok c else Except.error ValidationError.invalid
  else if c.feature == earlyAccessName then
    if validEarlyAccess c then Except.ok c else Except.error ValidationError.invalid
  else Except.error ValidationError.invalid

/-- True when the catalog has a definition for the given feature name. -/
def knownName (n : String) : Bool :=
  (Features.find? (fun f => f.feature == n)).isSome

/-- The catalog's declared kind for a feature name, when the name is known. -/
def catalogKind (n : String) : Option FeatureKind :=
  (Features.find? (fun f => f.feature == n)).map (fun f => f.type)

/-- The per-name shape check a candidate's raw config must pass. -/
def shapeOk (c : CommonFeature) : Bool :=
  if c.feature == copilotName then copilotShapeOk c.configs
  else if c.feature == earlyAccessName then earlyAccessShapeOk c.configs
  else false

/-- True when the candidate's schema version is supported for its name
(both catalog entries declare version 1). -/
def supportedVersion (c : CommonFeature) : Bool :=
  c.version == 1

/-- Validated per-kind configuration carried by a persisted entitlement
record (the spec's `config: validated-per-kind`). -/
inductive FeatureConfig where
  | copilot
  | earlyAccess (whitelist : List String)
  | quotaCfg
deriving DecidableEq, Repr

/-- Persisted entitlement record, the spec's durable shape
`{userId, featureName, kind, schemaVersion, config, grantedAt}` plus the
`activated` tombstone flag that makes a revoked grant resolve as absent
while keeping the history. -/
structure EntitlementRecord where
  userId : Nat
  featureName : String
  kind : FeatureKind
  schemaVersion : Nat
  config : FeatureConfig
  grantedAt : Nat
  activated : Bool
deriving DecidableEq, Repr

/-- A row of the `user` table, with the fields the resolver reads
(`id`, `name`, `email`, `emailVerified`, `avatarUrl`, `createdAt`,
`password`). -/
structure User where
  id : Nat
  name : String
  email : String
  emailVerified : Bool
  avatarUrl : Option String
  createdAt : Nat
  password : Option String
deriving DecidableEq, Repr

/-- The `UserType` payload the resolver returns: the user fields with
`hasPassword` in place of the stored password. -/
structure UserView where
  id : Nat
  name : String
  email : String
  emailVerified : Bool
  avatarUrl : Option String
  createdAt : Nat
  hasPassword : Bool
deriving DecidableEq, Repr

/-- Builds the resolver's response payload from a stored user
(`hasPassword: !!storedUser.password`). -/
def toView (u : User) : UserView :=
  { id := u.id
  , name := u.name
  , email := u.email
  , emailVerified := u.emailVerified
  , avatarUrl := u.avatarUrl
  , createdAt := u.createdAt
  , hasPassword := u.password.isSome }

/-- The state the resolver operations read and mutate: the staff list
consulted by the authorization collaborator, the user table, the
entitlement store, a clock supplying `grantedAt` timestamps, and the next
fresh user id. -/
structure Env where
  staffList : List String
  users : List User
  store : List EntitlementRecord
  clock : Nat
  nextUserId : Nat
deriving DecidableEq, Repr

/-- Modelled from the spec: the authorization collaborator
`isStaff(email) -> boolean` (`FeatureManagementService.isStaff` is not in
the snapshot), abstracted as membership in the environment's staff list. -/
def isStaff (env : Env) (email : String) : Bool :=
  env.staffList.contains email

/-- Embedding of `UsersService.findUserByEmail`: first user row whose
email equals the argument. -/
def findUserByEmail (users : List User) (email : String) : Option User :=
  users.find? (fun u => u.email == email)

/-- Embedding of `UsersService.findUserById`: first user row whose id
equals the argument. -/
def findUserById (users : List User) (uid : Nat) : Option User :=
  users.find? (fun u => u.id == uid)

/-- The entitlement records of one `(userId, featureName)` key, in store
order. -/
def recordsFor (store : List EntitlementRecord) (uid : Nat) (name : String) :
    List EntitlementRecord :=
  store.filter (fun r => r.userId == uid && r.featureName == name)

/-- The most recently appended record of one `(userId, featureName)` key. -/
def latestRecord (store : List EntitlementRecord) (uid : Nat) (name : String) :
    Option EntitlementRecord :=
  (recordsFor store uid name).reverse.head?

/-- True when the latest record of the key exists and is activated: the
grant is in force. -/
def hasActiveGrant (store : List EntitlementRecord) (uid : Nat) (name : String) :
    Bool :=
  match latestRecord store uid name with
  | some r => r.activated
  | none => false

/-- The resolved entitlement state of a `(userId, featureName)` key:
`some config` when granted, `none` when absent. -/
def resolveState (store : List EntitlementRecord) (uid : Nat) (name : String) :
    Option FeatureConfig :=
  match latestRecord store uid name with
  | some r => if r.activated then some r.config else none
  | none => none

/-- Modelled from the spec: `EntitlementService.grant` as seen by the store
(authorization is enforced by the resolver, the config argument is already
validated). Appends a new activated record carrying the current timestamp
and returns the timestamp as the grant result; history is never mutated in
place. -/
def grantFeature (env : Env) (uid : Nat) (name : String) (kind : FeatureKind)
    (cfg : FeatureConfig) : Nat × Env :=
  let r : EntitlementRecord :=
    { userId := uid
    , featureName := name
    , kind := kind
    , schemaVersion := 1
    , config := cfg
    , grantedAt := env.clock
    , activated := true }
  (env.clock, { env with store := env.store ++ [r], clock := env.clock + 1 })

/-- Modelled from the spec: `EntitlementService.revoke` as seen by the
store. When an active grant exists it appends a deactivated tombstone of
the latest record (the spec retains history: logically removed, not
overwritten) and reports 1 record revoked; when no active record exists it
returns 0 without error and leaves the store untouched. -/
def revokeFeature (env : Env) (uid : Nat) (name : String) : Nat × Env :=
  match latestRecord env.store uid name with
  | some r =>
    if r.activated then
      (1, { env with
              store := env.store ++
                [{ r with activated := false, grantedAt := env.clock }]
            , clock := env.clock + 1 })
    else (0, env)
  | none => (0, env)

/-- Modelled from the spec: `FeatureManagementService.addEarlyAccess`
(not in the snapshot) grants the EarlyAccess feature to the user with the
feature's default configuration. -/
def addEarlyAccess (env : Env) (uid : Nat) : Nat × Env :=
  grantFeature env uid earlyAccessName FeatureKind.Feature
    (FeatureConfig.earlyAccess earlyAccessWhitelist)

/-- Modelled from the spec: `FeatureManagementService.removeEarlyAccess`
(not in the snapshot) revokes the user's EarlyAccess grant, reporting how
many records were revoked. -/
def removeEarlyAccess (env : Env) (uid : Nat) : Nat × Env :=
  revokeFeature env uid earlyAccessName

/-- Modelled from the spec: `FeatureManagementService.listEarlyAccess`
(not in the snapshot) lists the users holding an active EarlyAccess grant. -/
def listEarlyAccess (env : Env) : List User :=
  env.users.filter (fun u => hasActiveGrant env.store u.id earlyAccessName)

/-- Case-insensitive suffix match of one allow-list entry against an email
(an entry such as `@toeverything.info` matches every email of that
domain), computed over the character lists of the lower-cased strings. -/
def matchesEntry (entry email : String) : Bool :=
  List.isSuffixOf (entry.data.map Char.toLower) (email.data.map Char.toLower)

/-- Modelled from the spec: the EarlyAccessGate allow-list matcher —
case-insensitive domain-suffix match of the email against the entries; the
empty allow-list matches nothing. -/
def matchesAllowList (wl : List String) (email : String) : Bool :=
  wl.any (fun entry => matchesEntry entry email)

/-- Modelled from the spec: `FeatureManagementService.canEarlyAccess`
(not in the snapshot) — true when the email matches the EarlyAccess
allow-list or the corresponding user holds an explicit active EarlyAccess
grant. -/
def canEarlyAccess (env : Env) (email : String) : Bool :=
  matchesAllowList earlyAccessWhitelist email ||
    (match findUserByEmail env.users email with
     | some u => hasActiveGrant env.store u.id earlyAccessName
     | none => false)

/-- Modelled from the spec: `AuthService.createAnonymousUser` (not in the
snapshot) inserts a fresh user row for the email, with no password. -/
def createAnonymousUser (env : Env) (email : String) : User × Env :=
  let u : User :=
    { id := env.nextUserId
    , name := email
    , email := email
    , emailVerified := false
    , avatarUrl := none
    , createdAt := env.clock
    , password := none }
  (u, { env with users := env.users ++ [u], nextUserId := env.nextUserId + 1 })

/-- The user freshly created for an email by `createAnonymousUser`. -/
def anonUser (env : Env) (email : String) : User :=
  (createAnonymousUser env email).1

/-- Errors a resolver operation can throw: `ForbiddenException` or
`BadRequestException` with their messages. -/
inductive ResolverError where
  | forbidden (msg : String)
  | badRequest (msg : String)
deriving DecidableEq, Repr

/-- The message of every staff-gate `ForbiddenException` in the resolver. -/
def forbiddenMsg : String := "You are not allowed to do this"

/-- Embedding of `UserResolver.addToEarlyAccess`: non-staff callers are
rejected with `ForbiddenException`; a known email is granted directly; an
unknown email first gets an anonymous user created, which is then
granted. -/
def addToEarlyAccessR (env : Env) (currentUser : User) (email : String) :
    Except ResolverError Nat × Env :=
  if !(isStaff env currentUser.email) then
    (Except.error (ResolverError.forbidden forbiddenMsg), env)
  else
    match findUserByEmail env.users email with
    | some u =>
      let (n, env1) := addEarlyAccess env u.id
      (Except.ok n, env1)
    | none =>
      let (u, env1) := createAnonymousUser env email
      let (n, env2) := addEarlyAccess env1 u.id
      (Except.ok n, env2)

/-- Embedding of `UserResolver.removeEarlyAccess`: non-staff callers are
rejected with `ForbiddenException`; an unknown email is rejected with
`BadRequestException`; otherwise the user's EarlyAccess grant is
revoked. -/
def removeEarlyAccessR (env : Env) (currentUser : User) (email : String) :
    Except ResolverError Nat × Env :=
  if !(isStaff env currentUser.email) then
    (Except.error (ResolverError.forbidden forbiddenMsg), env)
  else
    match findUserByEmail env.users email with
    | none =>
      (Except.error (ResolverError.badRequest ("User " ++ email ++ " not found")),
       env)
    | some u =>
      let (n, env1) := removeEarlyAccess env u.id
      (Except.ok n, env1)

/-- Embedding of `UserResolver.earlyAccessUsers`: non-staff callers are
rejected with `ForbiddenException`; otherwise the early-access user list is
returned (the `isAdminQuery` context flag is presentation-only and
omitted). -/
def earlyAccessUsersR (env : Env) (currentUser : User) :
    Except ResolverError (List User) × Env :=
  if !(isStaff env currentUser.email) then
    (Except.error (ResolverError.forbidden forbiddenMsg), env)
  else
    (Except.ok (listEarlyAccess env), env)

/-- Embedding of `UserResolver.currentUser`: no authenticated caller yields
`null`; an authenticated caller whose id is not in the user table raises
`BadRequestException`; otherwise the stored user's view is returned. -/
def currentUserR (env : Env) (caller : Option User) :
    Except ResolverError (Option UserView) :=
  match caller with
  | none => Except.ok none
  | some u =>
    match findUserById env.users u.id with
    | none =>
      Except.error
        (ResolverError.badRequest ("User " ++ toString u.id ++ " not found in db"))
    | some storedUser => Except.ok (some (toView storedUser))

/-- Result of the public `user` query: either a `GraphQLError` carrying an
HTTP status code, or the (possibly null) looked-up user. -/
inductive UserQueryResult where
  | gqlError (code : Nat)
  | result (u : Option UserView)
deriving DecidableEq, Repr

/-- The numeric `HttpStatus.PAYMENT_REQUIRED` code. -/
def paymentRequired : Nat := 402

/-- Embedding of `UserResolver.user` (get user by email): without early
access the query returns a `GraphQLError` with code `PAYMENT_REQUIRED`;
with early access it returns the looked-up user, `hasPassword` set when a
password is stored. -/
def userQuery (env : Env) (email : String) : UserQueryResult :=
  if !(canEarlyAccess env email) then UserQueryResult.gqlError paymentRequired
  else UserQueryResult.result ((findUserByEmail env.users email).map toView)

/-- Immutable feature definition of the spec's data model:
`{name, kind, schemaVersion, defaultConfig}`. -/
structure FeatureDefinition where
  name : String
  kind : FeatureKind
  schemaVersion : Nat
  defaultConfig : FeatureConfig
deriving DecidableEq, Repr

/-- Modelled from the spec: the catalog's designated default quota
definition (the quota module is not in the snapshot); returned whenever a
user has no active quota record. -/
def defaultQuotaDefinition : FeatureDefinition :=
  { name := "free_plan"
  , kind := FeatureKind.Quota
  , schemaVersion := 1
  , defaultConfig := FeatureConfig.quotaCfg }

/-- Modelled from the spec: a second quota tier, so that resolution has a
non-trivial catalog to pick from. -/
def proPlanDefinition : FeatureDefinition :=
  { name := "pro_plan"
  , kind := FeatureKind.Quota
  , schemaVersion := 1
  , defaultConfig := FeatureConfig.quotaCfg }

/-- Modelled from the spec: the quota catalog, in declaration order (used
as the tie-break order of quota resolution). -/
def quotaCatalog : List FeatureDefinition :=
  [defaultQuotaDefinition, proPlanDefinition]

/-- Position of a quota definition in the catalog declaration order;
unknown names sort last. -/
def catalogOrder (name : String) : Nat :=
  match quotaCatalog.findIdx? (fun d => d.name == name) with
  | some i => i
  | none => quotaCatalog.length

/-- Picks the better of two quota records: larger `grantedAt` wins, ties
are broken by catalog declaration order. -/
def pickBest (r s : EntitlementRecord) : EntitlementRecord :=
  if s.grantedAt < r.grantedAt then r
  else if r.grantedAt < s.grantedAt then s
  else if catalogOrder r.featureName ≤ catalogOrder s.featureName then r
  else s

/-- The winning quota record of a list, when the list is non-empty. -/
def bestQuotaRecord : List EntitlementRecord → Option EntitlementRecord
  | [] => none
  | r :: rest =>
    match bestQuotaRecord rest with
    | none => some r
    | some s => some (pickBest r s)

/-- The active quota-kind records of a user. -/
def quotaRecords (store : List EntitlementRecord) (uid : Nat) :
    List EntitlementRecord :=
  store.filter
    (fun r => r.userId == uid && r.kind == FeatureKind.Quota && r.activated)

/-- The user quota fact the quota service returns, carrying the resolved
feature definition. -/
structure UserQuota where
  feature : FeatureDefinition
deriving DecidableEq, Repr

/-- Modelled from the spec: `QuotaService.getUserQuota` (the quota module
is not in the snapshot) — fetch the user's active quota-kind records, pick
the one with the largest `grantedAt` (ties broken by catalog declaration
order), map it to its catalog definition; with no record at all, fall back
to the designated default quota definition, never an absent value. -/
def getUserQuota (store : List EntitlementRecord) (uid : Nat) : UserQuota :=
  match bestQuotaRecord (quotaRecords store uid) with
  | some r =>
    { feature :=
        match quotaCatalog.find? (fun d => d.name == r.featureName) with
        | some d => d
        | none => defaultQuotaDefinition }
  | none => { feature := defaultQuotaDefinition }

/-- Embedding of `UserResolver.getQuota`: returns
`(await this.quota.getUserQuota(me.id)).feature`. -/
def getQuotaR (env : Env) (me : User) : FeatureDefinition :=
  (getUserQuota env.store me.id).feature

/-! Sample data used by concrete witnesses. -/

/-- A sample caller. -/
def sampleCaller : User :=
  { id := 1, name := "staff", email := "staff@toeverything.info"
  , emailVerified := true, avatarUrl := none, createdAt := 0, password := none }

/-- A sample target user. -/
def targetUser : User :=
  { id := 2, name := "t", email := "t@x.com"
  , emailVerified := false, avatarUrl := none, createdAt := 0, password := none }

/-- An environment with nothing in it (in particular, the sample caller is
not staff here). -/
def envEmpty : Env :=
  { staffList := [], users := [], store := [], clock := 0, nextUserId := 10 }

/-- An environment where the sample caller is staff and nothing else
exists. -/
def envStaffOnly : Env :=
  { staffList := ["staff@toeverything.info"], users := [], store := []
  , clock := 0, nextUserId := 10 }

/-- An environment where the sample caller is staff and the target user
exists with no grant. -/
def envStaffTarget : Env :=
  { staffList := ["staff@toeverything.info"], users := [targetUser]
  , store := [], clock := 0, nextUserId := 10 }

/-- An active EarlyAccess grant record of the target user. -/
def targetGrantRecord : EntitlementRecord :=
  { userId := 2, featureName := earlyAccessName, kind := FeatureKind.Feature
  , schemaVersion := 1, config := FeatureConfig.earlyAccess earlyAccessWhitelist
  , grantedAt := 0, activated := true }

/-- An environment where the sample caller is staff and the target user
holds an active EarlyAccess grant. -/
def envStaffGranted : Env :=
  { staffList := ["staff@toeverything.info"], users := [targetUser]
  , store := [targetGrantRecord], clock := 1, nextUserId := 10 }

/-! Helper lemmas about the entitlement store. -/

/-- Appending a record of the key extends the key's record list. -/
theorem recordsFor_append_match (store : List EntitlementRecord)
    (r : EntitlementRecord) (uid : Nat) (name : String)
    (h : (r.userId == uid && r.featureName == name) = true) :
    recordsFor (store ++ [r]) uid name = recordsFor store uid name ++ [r] := by
  simp [recordsFor, List.filter_append, h]

/-- The latest record after appending a record of the key is that record. -/
theorem latestRecord_append_match (store : List EntitlementRecord)
    (r : EntitlementRecord) (uid : Nat) (name : String)
    (h : (r.userId == uid && r.featureName == name) = true) :
    latestRecord (store ++ [r]) uid name = some r := by
  simp [latestRecord, recordsFor_append_match store r uid name h]

/-- After appending a record of the key, the grant is in force exactly when
the appended record is activated. -/
theorem hasActiveGrant_append_eq (store : List EntitlementRecord)
    (r : EntitlementRecord) (uid : Nat) (name : String)
    (h : (r.userId == uid && r.featureName == name) = true) :
    hasActiveGrant (store ++ [r]) uid name = r.activated := by
  simp [hasActiveGrant, latestRecord_append_match store r uid name h]

/-- The latest record of a key belongs to the key. -/
theorem latestRecord_pred (store : List EntitlementRecord) (uid : Nat)
    (name : String) (r : EntitlementRecord)
    (h : latestRecord store uid name = some r) :
    (r.userId == uid && r.featureName == name) = true := by
  have hmem : r ∈ recordsFor store uid name := by
    cases hl : (recordsFor store uid name).reverse with
    | nil => rw [latestRecord, hl] at h; simp at h
    | cons x xs =>
      rw [latestRecord, hl] at h
      simp only [List.head?_cons, Option.some.injEq] at h
      rw [← h]
      have hx : x ∈ (recordsFor store uid name).reverse := by
        rw [hl]; exact List.mem_cons_self _ _
      exact List.mem_reverse.mp hx
  exact (List.mem_filter.mp hmem).2

/-- Revoking with no active grant is the identity on the environment and
reports zero records revoked. -/
theorem revokeFeature_no_active (env : Env) (uid : Nat) (name : String)
    (h : hasActiveGrant env.store uid name = false) :
    revokeFeature env uid name = (0, env) := by
  unfold revokeFeature
  cases hl : latestRecord env.store uid name with
  | none => rfl
  | some r =>
    have hact : r.activated = false := by
      rw [hasActiveGrant, hl] at h; exact h
    simp [hact]

/-- A staff caller revoking the EarlyAccess of an existing user with no
active grant gets `0` back and leaves the environment untouched. -/
theorem removeEarlyAccessR_no_active (env : Env) (cu : User) (email : String)
    (u : User) (hstaff : isStaff env cu.email = true)
    (hfind : findUserByEmail env.users email = some u)
    (hgrant : hasActiveGrant env.store u.id earlyAccessName = false) :
    removeEarlyAccessR env cu email = (Except.ok 0, env) := by
  simp [removeEarlyAccessR, hstaff, hfind, removeEarlyAccess,
    revokeFeature_no_active env u.id earlyAccessName hgrant]

/-- A validated feature record has a known name, the catalog's kind for
that name, a supported schema version, and a config of the right shape. -/
theorem validateFeature_isOk_facts (c : CommonFeature)
    (h : (validateFeature c).isOk = true) :
    knownName c.feature = true ∧ catalogKind c.feature = some c.type ∧
      supportedVersion c = true ∧ shapeOk c = true := by
  unfold validateFeature at h
  by_cases h1 : (c.type != FeatureKind.Feature) = true
  · rw [if_pos h1] at h; simp [Except.isOk, Except.toBool] at h
  · rw [if_neg h1] at h
    have htype : c.type = FeatureKind.Feature := by
      simpa using h1
    by_cases h2 : (c.feature == copilotName) = true
    · rw [if_pos h2] at h
      have hname : c.feature = copilotName := by simpa using h2
      by_cases h3 : validCopilot c = true
      · have hv : c.version = 1 ∧ copilotShapeOk c.configs = true := by
          simpa [validCopilot] using h3
        refine ⟨?_, ?_, ?_, ?_⟩
        · rw [hname]; decide
        · rw [hname, htype]; decide
        · simp [supportedVersion, hv.1]
        · simp [shapeOk, hname, hv.2]
      · rw [if_neg h3] at h; simp [Except.isOk, Except.toBool] at h
    · rw [if_neg h2] at h
      by_cases h4 : (c.feature == earlyAccessName) = true
      · rw [if_pos h4] at h
        have hname : c.feature = earlyAccessName := by simpa using h4
        by_cases h5 : validEarlyAccess c = true
        · have hv : c.version = 1 ∧ earlyAccessShapeOk c.configs = true := by
            simpa [validEarlyAccess] using h5
          refine ⟨?_, ?_, ?_, ?_⟩
          · rw [hname]; decide
          · rw [hname, htype]; decide
          · simp [supportedVersion, hv.1]
          · have hne : (earlyAccessName == copilotName) = false := by decide
            simp [shapeOk, hname, hne, hv.2]
        · rw [if_neg h5] at h; simp [Except.isOk, Except.toBool] at h
      · rw [if_neg h4] at h; simp [Except.isOk, Except.toBool] at h

/-- C3: every candidate feature record whose name is unknown, whose kind
differs from the catalog's declared kind for that name, whose schema
version is unsupported, or whose raw config does not match the shape
required for its name, is rejected by the feature validator. -/
theorem validateFeature_rejects_invalid (c : CommonFeature)
    (h : knownName c.feature = false ∨ catalogKind c.feature ≠ some c.type ∨
      supportedVersion c = false ∨ shapeOk c = false) :
    (validateFeature c).isOk = false := by
  cases hok : (validateFeature c).isOk with
  | false => rfl
  | true =>
    exfalso
    have hf := validateFeature_isOk_facts c hok
    rcases h with h | h | h | h
    · rw [hf.1] at h; exact Bool.noConfusion h
    · exact h hf.2.1
    · rw [hf.2.2.1] at h; exact Bool.noConfusion h
    · rw [hf.2.2.2] at h; exact Bool.noConfusion h

/-- C3 witness: the validator rejects a record with an unknown feature
name. -/
theorem validateFeature_rejects_invalid_witness :
    (validateFeature
      { feature := "bogus", type := FeatureKind.Feature, version := 1
      , configs := ConfigVal.obj [] }).isOk = false :=
  validateFeature_rejects_invalid
    { feature := "bogus", type := FeatureKind.Feature, version := 1
    , configs := ConfigVal.obj [] }
    (Or.inl (by decide))

/-- C1: a caller whose email is not staff gets `Forbidden` from each of
`addToEarlyAccess`, `removeEarlyAccess` and `earlyAccessUsers`, and the
environment (users, entitlement store, clock) is left unchanged. -/
theorem nonstaff_admin_ops_forbidden (env : Env) (cu : User) (email : String)
    (h : isStaff env cu.email = false) :
    addToEarlyAccessR env cu email =
        (Except.error (ResolverError.forbidden forbiddenMsg), env) ∧
      removeEarlyAccessR env cu email =
        (Except.error (ResolverError.forbidden forbiddenMsg), env) ∧
      earlyAccessUsersR env cu =
        (Except.error (ResolverError.forbidden forbiddenMsg), env) := by
  refine ⟨?_, ?_, ?_⟩ <;>
    simp [addToEarlyAccessR, removeEarlyAccessR, earlyAccessUsersR, h]

/-- C1 witness: with an empty staff list, the sample caller is rejected by
all three administrative operations with the environment unchanged. -/
theorem nonstaff_admin_ops_forbidden_witness :
    addToEarlyAccessR envEmpty sampleCaller "a@b.c" =
        (Except.error (ResolverError.forbidden forbiddenMsg), envEmpty) ∧
      removeEarlyAccessR envEmpty sampleCaller "a@b.c" =
        (Except.error (ResolverError.forbidden forbiddenMsg), envEmpty) ∧
      earlyAccessUsersR envEmpty sampleCaller =
        (Except.error (ResolverError.forbidden forbiddenMsg), envEmpty) :=
  nonstaff_admin_ops_forbidden envEmpty sampleCaller "a@b.c" (by decide)

/-- C2: a user with zero quota-kind records in the entitlement store gets
the fixed default quota definition from the quota read path (the path is a
total function into `FeatureDefinition`: no absent value, no failure). -/
theorem getQuota_default_when_no_quota_records (env : Env) (me : User)
    (h : env.store.filter
      (fun r => r.userId == me.id && r.kind == FeatureKind.Quota) = []) :
    getQuotaR env me = defaultQuotaDefinition := by
  have hq : quotaRecords env.store me.id = [] := by
    unfold quotaRecords
    rw [List.filter_eq_nil_iff]
    intro r hr hpred
    have hnone := List.filter_eq_nil_iff.mp h r hr
    apply hnone
    simp only [Bool.and_eq_true] at hpred ⊢
    exact ⟨hpred.1.1, hpred.1.2⟩
  simp [getQuotaR, getUserQuota, hq, bestQuotaRecord]

/-- C2 witness: in the empty environment the sample caller resolves to the
default quota definition. -/
theorem getQuota_default_when_no_quota_records_witness :
    getQuotaR envEmpty sampleCaller = defaultQuotaDefinition :=
  getQuota_default_when_no_quota_records envEmpty sampleCaller (by decide)

/-- C4 counterexample: with a staff caller and an email that has no user
record, `removeEarlyAccess` does not succeed — it fails with
`BadRequestException` — refuting the claim that revoking a target with no
active grant, including a target user that does not exist, is never a
failure. -/
theorem removeEarlyAccess_missing_user_fails :
    removeEarlyAccessR envStaffOnly sampleCaller "ghost@x.com" =
      (Except.error (ResolverError.badRequest "User ghost@x.com not found"),
       envStaffOnly) := rfl

/-- C4 (amended): for a staff caller, revoking an existing target user with
no active EarlyAccess grant succeeds, reports zero revoked records and
leaves the environment unchanged; a target email with no user record
instead fails with `BadRequest`. -/
theorem removeEarlyAccess_absent_grant_not_failure (env : Env) (cu : User)
    (email : String) (hstaff : isStaff env cu.email = true) :
    (∀ u : User, findUserByEmail env.users email = some u →
        hasActiveGrant env.store u.id earlyAccessName = false →
        removeEarlyAccessR env cu email = (Except.ok 0, env)) ∧
      (findUserByEmail env.users email = none →
        removeEarlyAccessR env cu email =
          (Except.error
            (ResolverError.badRequest ("User " ++ email ++ " not found")),
           env)) := by
  constructor
  · intro u hfind hgrant
    exact removeEarlyAccessR_no_active env cu email u hstaff hfind hgrant
  · intro hfind
    simp [removeEarlyAccessR, hstaff, hfind]

/-- C4 witness: in the staff environment the existing ungranted target user
is revoked without error, reporting zero revoked records. -/
theorem removeEarlyAccess_absent_grant_not_failure_witness :
    removeEarlyAccessR envStaffTarget sampleCaller "t@x.com" =
      (Except.ok 0, envStaffTarget) :=
  (removeEarlyAccess_absent_grant_not_failure envStaffTarget sampleCaller
    "t@x.com" (by decide)).1 targetUser (by decide) (by decide)

/-- C5: for a staff caller and an already-granted existing user, revoking
twice in a row reports one revoked record the first time and zero the
second time, and the second call is not an error. -/
theorem revoke_twice_idempotent (env : Env) (cu : User) (email : String)
    (u : User) (hstaff : isStaff env cu.email = true)
    (hfind : findUserByEmail env.users email = some u)
    (hgrant : hasActiveGrant env.store u.id earlyAccessName = true) :
    (removeEarlyAccessR env cu email).1 = Except.ok 1 ∧
      removeEarlyAccessR (removeEarlyAccessR env cu email).2 cu email =
        (Except.ok 0, (removeEarlyAccessR env cu email).2) := by
  cases hl : latestRecord env.store u.id earlyAccessName with
  | none =>
    rw [hasActiveGrant, hl] at hgrant
    exact absurd hgrant (by simp)
  | some r =>
    have hact : r.activated = true := by
      rw [hasActiveGrant, hl] at hgrant; exact hgrant
    have hrevoke : revokeFeature env u.id earlyAccessName =
        (1, { env with
                store := env.store ++
                  [{ r with activated := false, grantedAt := env.clock }]
              , clock := env.clock + 1 }) := by
      unfold revokeFeature; rw [hl]; simp [hact]
    have hcall1 : removeEarlyAccessR env cu email =
        (Except.ok 1,
         { env with
             store := env.store ++
               [{ r with activated := false, grantedAt := env.clock }]
           , clock := env.clock + 1 }) := by
      simp [removeEarlyAccessR, hstaff, hfind, removeEarlyAccess, hrevoke]
    refine ⟨by rw [hcall1], ?_⟩
    rw [hcall1]
    have hpred := latestRecord_pred env.store u.id earlyAccessName r hl
    apply removeEarlyAccessR_no_active _ cu email u
    · exact hstaff
    · exact hfind
    · rw [hasActiveGrant_append_eq env.store
        { r with activated := false, grantedAt := env.clock }
        u.id earlyAccessName hpred]

/-- C5 witness: in the staff environment with an active grant of the target
user, the first revoke reports one record and the second revoke reports
zero without error. -/
theorem revoke_twice_idempotent_witness :
    (removeEarlyAccessR envStaffGranted sampleCaller "t@x.com").1 =
        Except.ok 1 ∧
      removeEarlyAccessR (removeEarlyAccessR envStaffGranted sampleCaller
          "t@x.com").2 sampleCaller "t@x.com" =
        (Except.ok 0,
         (removeEarlyAccessR envStaffGranted sampleCaller "t@x.com").2) :=
  revoke_twice_idempotent envStaffGranted sampleCaller "t@x.com" targetUser
    (by decide) (by decide) (by decide)

/-- The environment after a grant. -/
def afterGrant (env : Env) (uid : Nat) (name : String) (kind : FeatureKind)
    (cfg : FeatureConfig) : Env :=
  (grantFeature env uid name kind cfg).2

/-- The environment after a revoke. -/
def afterRevoke (env : Env) (uid : Nat) (name : String) : Env :=
  (revokeFeature env uid name).2

/-- A grant resolves its key to the granted configuration. -/
theorem resolveState_afterGrant (env : Env) (uid : Nat) (name : String)
    (kind : FeatureKind) (cfg : FeatureConfig) :
    resolveState (afterGrant env uid name kind cfg).store uid name =
      some cfg := by
  have hpred :
      (({ userId := uid, featureName := name, kind := kind, schemaVersion := 1
        , config := cfg, grantedAt := env.clock, activated := true }
          : EntitlementRecord).userId == uid &&
        ({ userId := uid, featureName := name, kind := kind, schemaVersion := 1
         , config := cfg, grantedAt := env.clock, activated := true }
           : EntitlementRecord).featureName == name) = true := by
    simp
  rw [afterGrant, grantFeature, resolveState,
    latestRecord_append_match _ _ _ _ hpred]
  simp

/-- A grant appends exactly one record to the store. -/
theorem afterGrant_length (env : Env) (uid : Nat) (name : String)
    (kind : FeatureKind) (cfg : FeatureConfig) :
    (afterGrant env uid name kind cfg).store.length =
      env.store.length + 1 := by
  simp [afterGrant, grantFeature]

/-- A revoke never shrinks the store. -/
theorem afterRevoke_length_ge (env : Env) (uid : Nat) (name : String) :
    env.store.length ≤ (afterRevoke env uid name).store.length := by
  unfold afterRevoke revokeFeature
  cases hl : latestRecord env.store uid name with
  | none => simp
  | some r =>
    by_cases hr : r.activated = true
    · simp [hr]
    · simp [hr]

/-- C6: after grant, revoke, grant on one `(userId, featureName)` key, the
key resolves to granted with the configuration of the latest grant, and the
record history length never decreases at any of the three steps. -/
theorem grant_revoke_grant_resolves_latest (env : Env) (uid : Nat)
    (name : String) (kind : FeatureKind) (c1 c2 : FeatureConfig) :
    resolveState
        (afterGrant (afterRevoke (afterGrant env uid name kind c1) uid name)
          uid name kind c2).store uid name = some c2 ∧
      env.store.length ≤ (afterGrant env uid name kind c1).store.length ∧
      (afterGrant env uid name kind c1).store.length ≤
        (afterRevoke (afterGrant env uid name kind c1) uid name).store.length ∧
      (afterRevoke (afterGrant env uid name kind c1) uid name).store.length ≤
        (afterGrant (afterRevoke (afterGrant env uid name kind c1) uid name)
          uid name kind c2).store.length := by
  refine ⟨resolveState_afterGrant _ _ _ _ _, ?_, ?_, ?_⟩
  · rw [afterGrant_length]; omega
  · exact afterRevoke_length_ge _ _ _
  · rw [afterGrant_length]; omega

/-- C7: an email matching the EarlyAccess allow-list has early access in
every environment, in particular with zero explicit EarlyAccess
entitlement records. -/
theorem allowlist_match_grants_early_access (env : Env) (email : String)
    (h : matchesAllowList earlyAccessWhitelist email = true) :
    canEarlyAccess env email = true := by
  simp [canEarlyAccess, h]

/-- C7 witness: `x@toeverything.info` has early access in the empty
environment (no users, no entitlement records) through the default
allow-list `[@toeverything.info]`. -/
theorem allowlist_match_grants_early_access_witness :
    canEarlyAccess envEmpty "x@toeverything.info" = true :=
  allowlist_match_grants_early_access envEmpty "x@toeverything.info"
    (by decide)

/-- C8: for a staff caller and an email with no user record,
`addToEarlyAccess` does not fail: it returns the grant result, the
post-state contains the freshly created anonymous user under that email,
and that user holds an active EarlyAccess grant. -/
theorem addToEarlyAccess_creates_and_grants (env : Env) (cu : User)
    (email : String) (hstaff : isStaff env cu.email = true)
    (hfind : findUserByEmail env.users email = none) :
    (addToEarlyAccessR env cu email).1 = Except.ok env.clock ∧
      findUserByEmail (addToEarlyAccessR env cu email).2.users email =
        some (anonUser env email) ∧
      hasActiveGrant (addToEarlyAccessR env cu email).2.store
        (anonUser env email).id earlyAccessName = true := by
  have hstep : addToEarlyAccessR env cu email =
      (Except.ok env.clock,
       { env with
           users := env.users ++ [anonUser env email]
         , store := env.store ++
             [{ userId := env.nextUserId, featureName := earlyAccessName
              , kind := FeatureKind.Feature, schemaVersion := 1
              , config := FeatureConfig.earlyAccess earlyAccessWhitelist
              , grantedAt := env.clock, activated := true }]
         , clock := env.clock + 1
         , nextUserId := env.nextUserId + 1 }) := by
    simp [addToEarlyAccessR, hstaff, hfind, createAnonymousUser,
      addEarlyAccess, grantFeature, anonUser]
  refine ⟨by rw [hstep], ?_, ?_⟩
  · rw [hstep]
    have hfind2 :
        List.find? (fun u => u.email == email) env.users = none := hfind
    simp [findUserByEmail, List.find?_append, hfind2, anonUser,
      createAnonymousUser]
  · rw [hstep]
    have hpred :
        (({ userId := env.nextUserId, featureName := earlyAccessName
          , kind := FeatureKind.Feature, schemaVersion := 1
          , config := FeatureConfig.earlyAccess earlyAccessWhitelist
          , grantedAt := env.clock, activated := true }
            : EntitlementRecord).userId == (anonUser env email).id &&
          ({ userId := env.nextUserId, featureName := earlyAccessName
           , kind := FeatureKind.Feature, schemaVersion := 1
           , config := FeatureConfig.earlyAccess earlyAccessWhitelist
           , grantedAt := env.clock, activated := true }
             : EntitlementRecord).featureName == earlyAccessName) = true := by
      simp [anonUser, createAnonymousUser]
    rw [hasActiveGrant_append_eq env.store _ (anonUser env email).id
      earlyAccessName hpred]

/-- C8 witness: in the staff-only environment, adding early access for an
unknown email succeeds, creates the anonymous user and grants it
EarlyAccess. -/
theorem addToEarlyAccess_creates_and_grants_witness :
    (addToEarlyAccessR envStaffOnly sampleCaller "new@user.com").1 =
        Except.ok envStaffOnly.clock ∧
      findUserByEmail
          (addToEarlyAccessR envStaffOnly sampleCaller "new@user.com").2.users
          "new@user.com" =
        some (anonUser envStaffOnly "new@user.com") ∧
      hasActiveGrant
          (addToEarlyAccessR envStaffOnly sampleCaller "new@user.com").2.store
          (anonUser envStaffOnly "new@user.com").id earlyAccessName = true :=
  addToEarlyAccess_creates_and_grants envStaffOnly sampleCaller "new@user.com"
    (by decide) (by decide)

/-- C9: the public user-by-email query returns a `PAYMENT_REQUIRED`
GraphQL error whenever the email has no early access, and returns the
looked-up user data only when the email has early access. -/
theorem user_query_gated_by_early_access (env : Env) (email : String) :
    (canEarlyAccess env email = false →
        userQuery env email = UserQueryResult.gqlError paymentRequired) ∧
      (canEarlyAccess env email = true →
        userQuery env email =
          UserQueryResult.result ((findUserByEmail env.users email).map
            toView)) := by
  constructor <;> intro h <;> simp [userQuery, h]

/-- C9 witness: in the empty environment an email outside the allow-list
gets the `PAYMENT_REQUIRED` error. -/
theorem user_query_gated_by_early_access_witness :
    userQuery envEmpty "a@b.c" = UserQueryResult.gqlError paymentRequired :=
  (user_query_gated_by_early_access envEmpty "a@b.c").1 (by decide)

/-- C10: `currentUser` returns null exactly when no authenticated caller is
present, and an authenticated caller whose id is absent from the user table
gets a `BadRequest` error. -/
theorem current_user_null_iff_unauthenticated (env : Env)
    (caller : Option User) :
    (currentUserR env caller = Except.ok none ↔ caller = none) ∧
      (∀ u : User, caller = some u → findUserById env.users u.id = none →
        currentUserR env caller =
          Except.error (ResolverError.badRequest
            ("User " ++ toString u.id ++ " not found in db"))) := by
  constructor
  · constructor
    · intro h
      cases caller with
      | none => rfl
      | some u =>
        exfalso
        cases hf : findUserById env.users u.id with
        | none => simp [currentUserR, hf] at h
        | some su => simp [currentUserR, hf] at h
    · intro h; rw [h]; rfl
  · intro u hc hf
    rw [hc]
    simp [currentUserR, hf]

/-- C10 witness: an authenticated caller whose id is not in the empty user
table gets the `BadRequest` error, by applying the theorem at the sample
caller. -/
theorem current_user_null_iff_unauthenticated_witness :
    currentUserR envEmpty (some sampleCaller) =
      Except.error (ResolverError.badRequest
        ("User " ++ toString sampleCaller.id ++ " not found in db")) :=
  (current_user_null_iff_unauthenticated envEmpty (some sampleCaller)).2
    sampleCaller rfl (by decide)
